import Mathlib

/-
Verification development for the DatatoTable repository
(datatotable/data.py, datatotable/database.py, tests.py).

Python runtime values are embedded as an inductive type `Val`:
integers as ℤ, floats as exact rationals ℚ (no claim below depends on
binary64 representation error), strings as `String`, booleans as `Bool`,
`datetime.date` / `datetime.datetime` objects as abstract integer ordinals
(no claim inspects the internals of a date), and `None` as `noneV`.

The module `datatotable/typecheck.py` is imported by `data.py` and by
`tests.py` (functions `get_type` and `set_type`) but its source file is not
part of the repository snapshot; those two functions are modelled from the
specification, with the behaviour that the repository's own test assertions
pin down taken from `tests.py` (see the doc comments on `get_type`,
`coerce_one` and `set_type`).  Everything else is translated directly from
`data.py` and `database.py`.
-/

inductive Val
  | intV (n : ℤ)
  | floatV (q : ℚ)
  | strV (s : String)
  | boolV (b : Bool)
  | dateV (d : ℤ)
  | datetimeV (t : ℤ)
  | noneV
deriving DecidableEq

/-- Row-oriented record: a Python dict from column name to value,
embedded as an association list (Python dicts have unique keys; theorems
that need uniqueness carry an explicit `Nodup` hypothesis). -/
abbrev Row := List (String × Val)

/-- Column-oriented data: a Python dict from column name to the ordered
list of that column's values. -/
abbrev ColMap := List (String × List Val)

/-- Modelled from the spec: the closed universe of scalar kinds used by the
type inferrer of the missing `typecheck.py`
({Integer, Float, String, Boolean, Date, DateTime, Null}, spec section 3). -/
inductive ScalarKind
  | integer
  | float
  | string
  | boolean
  | date
  | datetime
  | null
deriving DecidableEq, Fintype

/-- Modelled from the spec: the fixed precedence
String > DateTime > Date > Float > Integer > Boolean of the type lattice
(spec section 4.1), as a numeric rank with Null at the bottom. -/
def rank : ScalarKind → ℕ
  | .null => 0
  | .boolean => 1
  | .integer => 2
  | .float => 3
  | .date => 4
  | .datetime => 5
  | .string => 6

/-- Modelled from the spec: pairwise promotion of two observed kinds
(spec section 4.1): equal kinds stay, Null is the identity, and otherwise
the result is the higher kind in the fixed precedence chain. -/
def promote (a b : ScalarKind) : ScalarKind :=
  if a = b then a
  else if a = .null then b
  else if b = .null then a
  else if rank a < rank b then b else a

/-- Modelled from the spec: structural classification of a raw value into
its ScalarKind using exact kind checks (spec section 4.2), matching the
`typecheck.get_type` per-value classification pinned by
`tests.py::TestTypeCheck.test_get_type`. -/
def classify : Val → ScalarKind
  | .intV _ => .integer
  | .floatV _ => .float
  | .strV _ => .string
  | .boolV _ => .boolean
  | .dateV _ => .date
  | .datetimeV _ => .datetime
  | .noneV => .null

/-- Modelled from the spec: `typecheck.get_type` (missing from the
snapshot) infers a column's kind by classifying each value and folding the
column in original order with pairwise promotion, starting from the Null
identity (spec section 4.2). -/
def get_type (vals : List Val) : ScalarKind :=
  vals.foldl (fun k v => promote k (classify v)) .null

/-- Coercion targets of `typecheck.set_type`: the Python type objects
`int`, `float`, `str`, `bool`, `datetime.date`, `datetime.datetime` that
the callers in `tests.py` pass as the second argument. -/
inductive PyType
  | int
  | float
  | str
  | bool
  | date
  | datetime
deriving DecidableEq, Fintype

/-- The ScalarKind that a value must already have for exact-kind
passthrough into the given target type. -/
def target_kind : PyType → ScalarKind
  | .int => .integer
  | .float => .float
  | .str => .string
  | .bool => .boolean
  | .date => .date
  | .datetime => .datetime

/-- Modelled from the spec: the coercion error taxonomy of section 7 —
`CoercionError` (value cannot be converted, carrying value, index and
target kind) and `UnsupportedCoercionError` (cross-kind coercion into
Boolean, Date or DateTime).  Both surface as `ValueError` in the Python
code, per `tests.py::TestTypeCheck.test_set_type_errors`. -/
inductive TcError
  | coercionError (v : Val) (i : ℕ) (t : PyType)
  | unsupportedCoercion (v : Val) (i : ℕ) (t : PyType)
deriving DecidableEq

def parse_digits (cs : List Char) : Option ℕ :=
  if cs ≠ [] ∧ cs.all Char.isDigit then
    some (cs.foldl (fun n c => n * 10 + (c.toNat - 48)) 0)
  else none

/-- Modelled from the spec: unsigned part of a floating-point literal —
digits with an optional decimal point, at least one digit overall
(exponents are never exercised by any claim and are not modelled). -/
def parse_unsigned (cs : List Char) : Option ℚ :=
  match cs.span (fun c => c ≠ '.') with
  | (ip, []) => (parse_digits ip).map (fun n => (n : ℚ))
  | (ip, _ :: fp) =>
    if ip = [] ∧ fp = [] then none
    else
      match (if ip = [] then some 0 else parse_digits ip),
            (if fp = [] then some 0 else parse_digits fp) with
      | some ipn, some fpn =>
        some ((ipn : ℚ) + (fpn : ℚ) / (10 : ℚ) ^ fp.length)
      | _, _ => none

/-- Modelled from the spec: parsing a string as a floating-point literal
with surrounding whitespace trimmed, failing on anything that is not a
plain decimal literal, e.g. a unit-suffixed string like a length with a
unit (spec section 4.3). -/
def parse_float (s : String) : Option ℚ :=
  match s.trim.toList with
  | '-' :: rest => (parse_unsigned rest).map (fun q => -q)
  | '+' :: rest => parse_unsigned rest
  | cs => parse_unsigned cs

/-- Round a rational to the nearest integer, ties to even: the semantics
of Python's builtin `round`, which `tests.py::TestTypeCheck.test_set_type`
pins as the float-to-int behaviour of `typecheck.set_type`
(`set_type([1.1, 2.2, 3.3, 4.6], int) == [1, 2, 3, 5]`). -/
def round_half_even (q : ℚ) : ℤ :=
  let n := q.num
  let d : ℤ := (q.den : ℤ)
  let f := n.fdiv d
  let twice_rem := 2 * (n - f * d)
  if twice_rem < d then f
  else if d < twice_rem then f + 1
  else if f % 2 = 0 then f else f + 1

def frac_digits : ℕ → ℕ → ℕ → List Char
  | 0, _, _ => []
  | _, 0, _ => []
  | fuel + 1, r, d =>
    Char.ofNat (48 + r * 10 / d) :: frac_digits fuel (r * 10 % d) d

/-- Modelled from the spec: default decimal representation of a float
(spec section 4.3, canonical stringification).  Rendered by long division
with a fuel bound; no claim below observes this rendering. -/
def float_repr_nonneg (q : ℚ) : String :=
  let n := q.num.toNat
  let d := q.den
  let rem := n % d
  let frac := if rem = 0 then "0" else String.mk (frac_digits 30 rem d)
  toString (n / d) ++ "." ++ frac

def float_repr (q : ℚ) : String :=
  if q < 0 then "-" ++ float_repr_nonneg (-q) else float_repr_nonneg q

/-- Modelled from the spec: canonical stringification of each kind
(spec section 4.3).  Dates and datetimes are abstract ordinals in this
embedding, so their ISO-8601 rendering is abstracted to a tagged ordinal;
no claim observes string coercion. -/
def str_of_val : Val → String
  | .intV n => toString n
  | .floatV q => float_repr q
  | .strV s => s
  | .boolV b => if b then "True" else "False"
  | .dateV d => "date-" ++ toString d
  | .datetimeV t => "datetime-" ++ toString t
  | .noneV => "None"

/-- Modelled from the spec: per-value coercion of `typecheck.set_type`
(missing from the snapshot), spec section 4.3, with the numeric rules
adjusted to the behaviour pinned by `tests.py::TestTypeCheck.test_set_type`:
floats and float-literal strings coerce to `int` by rounding (ties to
even), not by rejecting a nonzero fractional part.  Null passes through
every target without error; cross-kind coercion into `bool`, `date` or
`datetime` is unsupported (spec section 4.3, pinned for strings into
`datetime` by `tests.py::TestTypeCheck.test_set_type_errors`). -/
def coerce_one (i : ℕ) (v : Val) (t : PyType) : Except TcError Val :=
  match t with
  | .int =>
    match v with
    | .intV n => .ok (.intV n)
    | .floatV q => .ok (.intV (round_half_even q))
    | .strV s =>
      match parse_float s with
      | some q => .ok (.intV (round_half_even q))
      | none => .error (.coercionError v i t)
    | .boolV b => .ok (.intV (if b then 1 else 0))
    | .noneV => .ok .noneV
    | _ => .error (.coercionError v i t)
  | .float =>
    match v with
    | .intV n => .ok (.floatV (n : ℚ))
    | .floatV q => .ok (.floatV q)
    | .strV s =>
      match parse_float s with
      | some q => .ok (.floatV q)
      | none => .error (.coercionError v i t)
    | .boolV b => .ok (.floatV (if b then 1 else 0))
    | .noneV => .ok .noneV
    | _ => .error (.coercionError v i t)
  | .str =>
    match v with
    | .noneV => .ok .noneV
    | w => .ok (.strV (str_of_val w))
  | .bool =>
    match v with
    | .boolV b => .ok (.boolV b)
    | .noneV => .ok .noneV
    | _ => .error (.unsupportedCoercion v i t)
  | .date =>
    match v with
    | .dateV d => .ok (.dateV d)
    | .noneV => .ok .noneV
    | _ => .error (.unsupportedCoercion v i t)
  | .datetime =>
    match v with
    | .datetimeV d => .ok (.datetimeV d)
    | .noneV => .ok .noneV
    | _ => .error (.unsupportedCoercion v i t)

def set_type_from (i : ℕ) (vals : List Val) (t : PyType) :
    Except TcError (List Val) :=
  match vals with
  | [] => .ok []
  | v :: vs =>
    match coerce_one i v t with
    | .error e => .error e
    | .ok w =>
      match set_type_from (i + 1) vs t with
      | .error e => .error e
      | .ok ws => .ok (w :: ws)

/-- Modelled from the spec: `typecheck.set_type` (missing from the
snapshot) coerces every value of a list to the target type, stopping at
the first unconvertible element and discarding partial results
(spec section 4.3, failure semantics). -/
def set_type (vals : List Val) (t : PyType) : Except TcError (List Val) :=
  set_type_from 0 vals t

deriving instance DecidableEq for Except

/-- The rational 2.2 (= 11/5), written with an explicit constructor so the
kernel can evaluate it. -/
def ratTwoPointTwo : ℚ := ⟨11, 5, by decide, by decide⟩

/-- The rational 2.0 (= 2/1), written with an explicit constructor so the
kernel can evaluate it. -/
def ratTwo : ℚ := ⟨2, 1, by decide, by decide⟩


/-
Embedding of datatotable/data.py (class DataOperator).  The instance
attribute `self.data` after `__init__` is always a column map, so the
member functions below take a `ColMap` argument in place of `self`.
-/

/-- Python `dict.keys() == dict.keys()` compares key views as sets
(order-independent); used by `DataOperator._format_data` line 49. -/
def key_set_eq (ks1 ks2 : List String) : Bool :=
  ks1.all (fun k => ks2.contains k) && ks2.all (fun k => ks1.contains k)

/-- Python `row[key]` on a dict row: the value stored under `key`
(`None` result models a `KeyError`). -/
def lookup_val (k : String) (r : Row) : Option Val :=
  (r.find? (fun kv => kv.1 == k)).map (fun kv => kv.2)

/-- `DataOperator._format_data`, list branch (data.py lines 45-52): the
first element's keys become the column names; each row whose key set
equals the first element's key set (Python `i.keys() == keys`, a set
comparison) has its values appended to the columns, and every other row is
skipped by the `if` with no `else`.  `none` models the `IndexError` that
`data[0]` raises on an empty list. -/
def format_data (rows : List Row) : Option ColMap :=
  match rows with
  | [] => none
  | first :: _ =>
    let keys := first.map Prod.fst
    some (keys.map (fun k =>
      (k, rows.filterMap (fun r =>
        if key_set_eq (r.map Prod.fst) keys then lookup_val k r else none))))

/-- `DataOperator._get_py_type`, dict branch (data.py lines 64-67): infer
the python type of every column with `typecheck.get_type`. -/
def get_py_type (m : ColMap) : List (String × ScalarKind) :=
  m.map (fun kv => (kv.1, get_type kv.2))

/-- SQLAlchemy column types used by data.py (Integer, Float, String,
DateTime, Date, Boolean). -/
inductive SqlType
  | Integer
  | Float
  | String
  | DateTime
  | Date
  | Boolean
deriving DecidableEq

/-- An element of a column-definition value list: data.py stores the
SQLAlchemy type as a one-element list (e.g. `[Integer]`), and
tests.py appends constraint objects such as `ForeignKey('parent_tbl.id')`
to that list. -/
inductive ColArg
  | sqlT (t : SqlType)
  | foreignKey (target : String)
deriving DecidableEq

/-- `DataOperator._py_type_to_sql_type` (data.py lines 78-107): map each
python type to its one-element SQLAlchemy type list, and `continue` past
a `None` py_type so that no column is created for null values
(data.py lines 101-103).  The final `else: raise` branch is unreachable
because `ScalarKind` is the closed universe of classifier results. -/
def sql_args_of : ScalarKind → Option (List ColArg)
  | .integer => some [ColArg.sqlT .Integer]
  | .float => some [ColArg.sqlT .Float]
  | .string => some [ColArg.sqlT .String]
  | .datetime => some [ColArg.sqlT .DateTime]
  | .date => some [ColArg.sqlT .Date]
  | .boolean => some [ColArg.sqlT .Boolean]
  | .null => none

def py_type_to_sql_type (py_types : List (String × ScalarKind)) :
    List (String × List ColArg) :=
  py_types.filterMap (fun kv =>
    (sql_args_of kv.2).map (fun args => (kv.1, args)))

/-- `DataOperator.columns` (data.py lines 28-38): infer python types, then
convert them to SQLAlchemy column definitions. -/
def columns (m : ColMap) : List (String × List ColArg) :=
  py_type_to_sql_type (get_py_type m)

/-- One pass of the inner loop of `DataOperator._dict_to_rows`
(data.py lines 140-142): build the i-th row by reading `self.data[key][i]`
for every key; `none` models the `IndexError` raised when some column is
shorter than `i + 1`. -/
def row_at (m : ColMap) (i : ℕ) : Option Row :=
  match m with
  | [] => some []
  | (k, vs) :: rest =>
    match vs[i]? with
    | none => none
    | some v =>
      match row_at rest i with
      | none => none
      | some r => some ((k, v) :: r)

def collect_rows (m : ColMap) (is : List ℕ) : Option (List Row) :=
  match is with
  | [] => some []
  | i :: rest =>
    match row_at m i with
    | none => none
    | some r =>
      match collect_rows m rest with
      | none => none
      | some rs => some (r :: rs)

/-- `DataOperator._dict_to_rows` (data.py lines 132-144): the row count is
the length of the FIRST column (`length = len(self.data[keys[0]])`), and
for `i in range(length)` the i-th row maps every key to
`self.data[key][i]`.  `none` models the `IndexError` from `keys[0]` on an
empty dict or from an out-of-range `self.data[key][i]`. -/
def dict_to_rows (m : ColMap) : Option (List Row) :=
  match m with
  | [] => none
  | (_, vs0) :: _ => collect_rows m (List.range vs0.length)

/-- `DataOperator.validate_data_length` (data.py lines 163-178): collect
every column's length, put them in a set, and return whether the set has
exactly one element.  `List.dedup` plays the role of Python `set`. -/
def validate_data_length (m : ColMap) : Bool :=
  ((m.map (fun kv => kv.2.length)).dedup).length == 1

/-- `DataOperator.num_rows` (data.py lines 180-187): the maximum length
over the non-empty columns (`if self.data[key]:` skips empty lists);
`none` models the `ValueError` that Python `max([])` raises when every
column is empty or there are no columns. -/
def num_rows (m : ColMap) : Option ℕ :=
  ((m.filter (fun kv => !kv.2.isEmpty)).map (fun kv => kv.2.length)).max?

/-- `DataOperator.fill` (data.py lines 189-199): look up the column
(`none` models the `KeyError` on an absent key), compute its current
length and the dataset length `num_rows()` (`none` models the `ValueError`
from `max([])`), then append `value` once for every index in
`range(column_length, data_length)`. -/
def fill (m : ColMap) (key : String) (v : Val) : Option ColMap :=
  match m.lookup key with
  | none => none
  | some col =>
    let column_length := col.length
    match num_rows m with
    | none => none
    | some data_length =>
      some (m.map (fun kv =>
        if kv.1 == key then
          (kv.1, kv.2 ++ List.replicate (data_length - column_length) v)
        else kv))

/-
Embedding of datatotable/database.py (class DBInterface), the schema
assembly part used by the claims: `_generate_columns` and `map_table`.
-/

/-- A SQLAlchemy `Column(name, *args)`: data.py and tests.py always pass
the args as a list of type/constraint objects, so the `except TypeError`
branch of `_generate_columns` (bare non-list value) does not arise; the
`primary_key` keyword is only used for the synthetic id column. -/
structure DbColumn where
  name : String
  args : List ColArg
  primary_key : Bool
deriving DecidableEq

/-- A table-level constraint as passed to `map_table`: the constraint
constructor (e.g. `UniqueConstraint`) is abstracted to a tag, applied to
the list of constrained column names. -/
structure TableConstraint where
  tag : String
  cols : List String
deriving DecidableEq

/-- A SQLAlchemy `Table(tbl_name, metadata, *columns, *constraints)` as
assembled by `DBInterface.map_table`: the ordered column list and the
attached table-level constraints. -/
structure DbTable where
  name : String
  tableColumns : List DbColumn
  tableConstraints : List TableConstraint
deriving DecidableEq

/-- `DBInterface._generate_columns` (database.py lines 114-126): one
`Column(key, *value)` per entry, in order. -/
def generate_columns (column_types : List (String × List ColArg)) :
    List DbColumn :=
  column_types.map (fun kv => ⟨kv.1, kv.2, false⟩)

/-- The synthetic `Column('id', Integer, primary_key=True)` that
`DBInterface.map_table` passes to `Table` before all generated columns
(database.py lines 103 and 108). -/
def id_column : DbColumn := ⟨"id", [ColArg.sqlT .Integer], true⟩

/-- `DBInterface.map_table` (database.py lines 90-112): generate the
caller's columns, then assemble the table with the id column first.
Python `if constraints:` is false both for `None` and for an empty dict,
so those two cases take the constraint-free branch. -/
def map_table (tbl_name : String)
    (column_types : List (String × List ColArg))
    (constraints : Option (List TableConstraint)) : DbTable :=
  let cols := generate_columns column_types
  match constraints with
  | none => ⟨tbl_name, id_column :: cols, []⟩
  | some cs =>
    if cs.isEmpty then ⟨tbl_name, id_column :: cols, []⟩
    else ⟨tbl_name, id_column :: cols, cs⟩


/-
Shared helper lemmas.
-/

lemma length_filterMap_eq_countP {α β : Type} (f : α → Option β)
    (l : List α) :
    (l.filterMap f).length = l.countP (fun a => (f a).isSome) := by
  induction l with
  | nil => simp
  | cons a l ih =>
    cases h : f a <;>
      simp [List.filterMap_cons, h, List.countP_cons, ih]

lemma lookup_val_isSome_of_mem_keys {k : String} {r : Row}
    (h : k ∈ r.map Prod.fst) : (lookup_val k r).isSome := by
  induction r with
  | nil => simp at h
  | cons kv r ih =>
    by_cases hk : kv.1 = k
    · simp [lookup_val, List.find?_cons, hk]
    · have : k ∈ r.map Prod.fst := by
        simp only [List.map_cons, List.mem_cons] at h
        exact h.resolve_left (fun hh => hk hh.symm)
      have := ih this
      simpa [lookup_val, List.find?_cons, hk] using this

lemma assoc_unique_of_nodup_keys {β : Type} {l : List (String × β)}
    (h : (l.map Prod.fst).Nodup) {k : String} {a b : β}
    (ha : (k, a) ∈ l) (hb : (k, b) ∈ l) : a = b := by
  induction l with
  | nil => simp at ha
  | cons kv l ih =>
    simp only [List.map_cons, List.nodup_cons] at h
    rcases List.mem_cons.mp ha with ha1 | ha2
    · rcases List.mem_cons.mp hb with hb1 | hb2
      · rw [← ha1] at hb1
        exact (Prod.mk.injEq _ _ _ _).mp hb1.symm |>.2
      · exfalso
        apply h.1
        have : kv.1 = k := by rw [← ha1]
        rw [this]
        exact List.mem_map.mpr ⟨(k, b), hb2, rfl⟩
    · rcases List.mem_cons.mp hb with hb1 | hb2
      · exfalso
        apply h.1
        have : kv.1 = k := by rw [← hb1]
        rw [this]
        exact List.mem_map.mpr ⟨(k, a), ha2, rfl⟩
      · exact ih h.2 ha2 hb2

lemma mem_of_lookup_eq_some {β : Type} {l : List (String × β)} {k : String}
    {b : β} (h : l.lookup k = some b) : (k, b) ∈ l := by
  induction l with
  | nil => simp [List.lookup] at h
  | cons kv l ih =>
    cases hk : (k == kv.1) with
    | true =>
      have hkeq : k = kv.1 := eq_of_beq hk
      simp only [List.lookup, hk] at h
      have hb : kv.2 = b := Option.some.inj h
      exact List.mem_cons.mpr (Or.inl (by rw [hkeq, ← hb]))
    | false =>
      simp only [List.lookup, hk] at h
      exact List.mem_cons_of_mem _ (ih h)

lemma dedup_length_eq_one_iff {α : Type} [DecidableEq α] (l : List α) :
    l.dedup.length = 1 ↔ l ≠ [] ∧ ∀ a ∈ l, ∀ b ∈ l, a = b := by
  constructor
  · intro h
    rcases List.length_eq_one.mp h with ⟨a, ha⟩
    constructor
    · intro hl
      rw [hl] at ha
      simp at ha
    · intro x hx y hy
      have hx' : x = a := by
        have := List.mem_dedup.mpr hx
        rw [ha] at this
        simpa using this
      have hy' : y = a := by
        have := List.mem_dedup.mpr hy
        rw [ha] at this
        simpa using this
      rw [hx', hy']
  · rintro ⟨hne, hall⟩
    rcases List.exists_mem_of_ne_nil l hne with ⟨a, ha⟩
    apply List.length_eq_one.mpr
    refine ⟨a, ?_⟩
    have hnd : l.dedup.Nodup := List.nodup_dedup l
    have hmem : a ∈ l.dedup := List.mem_dedup.mpr ha
    have hall' : ∀ x ∈ l.dedup, x = a := by
      intro x hx
      exact hall x (List.mem_dedup.mp hx) a ha
    cases hd : l.dedup with
    | nil => rw [hd] at hmem; simp at hmem
    | cons x t =>
      rw [hd] at hall' hnd
      have hx : x = a := hall' x (List.mem_cons_self x t)
      cases t with
      | nil => rw [hx]
      | cons y t' =>
        exfalso
        have hy : y = a := hall' y (by simp)
        simp only [List.nodup_cons, List.mem_cons] at hnd
        exact hnd.1 (Or.inl (hx.trans hy.symm))

/-- C1 counterexample: normalizing the row-oriented input
`[{"a": 1, "b": 2}, {"a": 1}]`, whose second element's key set differs
from the first element's, does NOT fail: `_format_data` returns the column
map `{"a": [1], "b": [2]}`, silently dropping the mismatched second row
(the `if i.keys() == keys:` at data.py line 49 has no `else`). -/
theorem format_data_mismatched_row_dropped :
    format_data [[("a", .intV 1), ("b", .intV 2)], [("a", .intV 1)]] =
      some [("a", [.intV 1]), ("b", [.intV 2])] := by decide

/-- C1 (amended): normalization of row-oriented input never fails on a
mismatched key set; the first element's key set gives the column names,
and every column holds exactly one value per row whose key set equals the
first element's key set — rows with any other key set are silently
dropped. -/
theorem format_data_drops_mismatched_rows_silently (first : Row)
    (rest : List Row) :
    ∃ m, format_data (first :: rest) = some m ∧
      m.map Prod.fst = first.map Prod.fst ∧
      ∀ kv ∈ m, kv.2.length =
        (first :: rest).countP
          (fun r => key_set_eq (r.map Prod.fst) (first.map Prod.fst)) := by
  refine ⟨_, rfl, ?_, ?_⟩
  · rw [List.map_map]
    simp [Function.comp]
  · intro kv hkv
    rcases List.mem_map.mp hkv with ⟨k, hk, hkeq⟩
    rw [← hkeq]
    simp only
    rw [length_filterMap_eq_countP]
    apply List.countP_congr
    intro r _
    by_cases h : key_set_eq (r.map Prod.fst) (first.map Prod.fst)
    · simp only [h, if_pos, if_true]
      have hsub : ∀ x ∈ first.map Prod.fst, x ∈ r.map Prod.fst := by
        intro x hx
        have := (Bool.and_eq_true _ _).mp h |>.2
        have := List.all_eq_true.mp this x hx
        exact List.elem_iff.mp (by exact_mod_cast this)
      have : (lookup_val k r).isSome := lookup_val_isSome_of_mem_keys (hsub k hk)
      simp [h, this]
    · simp [h]

/-- C4: a column whose inferred kind is Null yields no column definition —
its name is absent from the column-definition mapping and nothing is
raised for it (the `continue` at data.py line 102) — while every column of
a supported non-null kind is present in the mapping. -/
theorem columns_skip_null_columns (m : ColMap)
    (hnd : (m.map Prod.fst).Nodup) (k : String) (vs : List Val)
    (hmem : (k, vs) ∈ m) :
    (get_type vs = .null → k ∉ (columns m).map Prod.fst) ∧
    (get_type vs ≠ .null → k ∈ (columns m).map Prod.fst) := by
  constructor
  · intro hnull hk
    rcases List.mem_map.mp hk with ⟨kv', hkv', hfst⟩
    rcases List.mem_filterMap.mp hkv' with ⟨pt, hpt, hsome⟩
    rcases Option.map_eq_some'.mp hsome with ⟨args, hargs, hkv'eq⟩
    rcases List.mem_map.mp hpt with ⟨kv0, hkv0, hpteq⟩
    have hk1 : pt.1 = k := by rw [← hfst, ← hkv'eq]
    have hk0 : kv0.1 = k := by
      have : pt.1 = kv0.1 := by rw [← hpteq]
      rw [← this, hk1]
    have hmem0 : (k, kv0.2) ∈ m := by
      rw [← hk0]
      exact hkv0
    have hvs : kv0.2 = vs := assoc_unique_of_nodup_keys hnd hmem0 hmem
    have hpt2 : pt.2 = get_type kv0.2 := by rw [← hpteq]
    rw [hpt2, hvs, hnull] at hargs
    simp [sql_args_of] at hargs
  · intro hnn
    have hpt : (k, get_type vs) ∈ get_py_type m :=
      List.mem_map.mpr ⟨(k, vs), hmem, rfl⟩
    have hsome : ∃ args, sql_args_of (get_type vs) = some args := by
      cases h : get_type vs
      case null => exact absurd h hnn
      all_goals exact ⟨_, rfl⟩
    rcases hsome with ⟨args, hargs⟩
    refine List.mem_map.mpr ⟨(k, args), List.mem_filterMap.mpr
      ⟨(k, get_type vs), hpt, ?_⟩, rfl⟩
    show (sql_args_of (get_type vs)).map (fun args => (k, args)) = some (k, args)
    rw [hargs]
    rfl

/-- C4 witness: on the dataset with an all-null column `nils` and an
integer column `ints`, the column mapping omits `nils` and contains
`ints`. -/
theorem columns_skip_null_columns_witness :
    "nils" ∉ (columns [("nils", [Val.noneV, Val.noneV]),
        ("ints", [Val.intV 1])]).map Prod.fst ∧
    "ints" ∈ (columns [("nils", [Val.noneV, Val.noneV]),
        ("ints", [Val.intV 1])]).map Prod.fst := by
  constructor
  · exact (columns_skip_null_columns _ (by decide) "nils"
      [Val.noneV, Val.noneV] (by decide)).1 (by decide)
  · exact (columns_skip_null_columns _ (by decide) "ints"
      [Val.intV 1] (by decide)).2 (by decide)

/-- C5 counterexample: on a column map with unequal column lengths,
`validate_data_length` raises nothing and enumerates nothing — it merely
returns the boolean `False` (data.py lines 175-178), so the claimed
`LengthMismatchError` with offending column names does not occur. -/
theorem validate_data_length_returns_false :
    validate_data_length [("a", [.intV 1]), ("b", [])] = false := by decide

/-- C5 (amended): `validate_data_length` returns `True` exactly when the
column map is non-empty and all columns have equal length, and returns
`False` otherwise (in particular on unequal lengths); it raises no error
and reports no column names. -/
theorem validate_data_length_iff_equal_lengths (m : ColMap) :
    validate_data_length m = true ↔
      m ≠ [] ∧ ∀ kv1 ∈ m, ∀ kv2 ∈ m, kv1.2.length = kv2.2.length := by
  unfold validate_data_length
  rw [beq_iff_eq, dedup_length_eq_one_iff]
  constructor
  · rintro ⟨hne, hall⟩
    constructor
    · intro h
      rw [h] at hne
      simp at hne
    · intro kv1 h1 kv2 h2
      exact hall _ (List.mem_map.mpr ⟨kv1, h1, rfl⟩)
        _ (List.mem_map.mpr ⟨kv2, h2, rfl⟩)
  · rintro ⟨hne, hall⟩
    constructor
    · intro h
      exact hne (List.map_eq_nil_iff.mp h)
    · intro a ha b hb
      rcases List.mem_map.mp ha with ⟨kv1, h1, ha'⟩
      rcases List.mem_map.mp hb with ⟨kv2, h2, hb'⟩
      rw [← ha', ← hb']
      exact hall kv1 h1 kv2 h2

/-- C8: for every table assembled by `map_table` — with or without
table-level constraints — the synthetic `Column('id', Integer,
primary_key=True)` is the first column of the table, before all
caller-supplied columns, which follow in order with their names
preserved. -/
theorem map_table_prepends_id_column (tbl_name : String)
    (column_types : List (String × List ColArg))
    (constraints : Option (List TableConstraint)) :
    (map_table tbl_name column_types constraints).tableColumns =
      id_column :: generate_columns column_types ∧
    id_column = ⟨"id", [ColArg.sqlT .Integer], true⟩ ∧
    (generate_columns column_types).map DbColumn.name =
      column_types.map Prod.fst := by
  refine ⟨?_, rfl, ?_⟩
  · cases constraints with
    | none => rfl
    | some cs =>
      by_cases h : cs.isEmpty <;> simp [map_table, h]
  · simp [generate_columns, List.map_map, Function.comp]

lemma promote_comm : ∀ a b : ScalarKind, promote a b = promote b a := by
  decide

lemma promote_assoc :
    ∀ a b c : ScalarKind,
      promote (promote a b) c = promote a (promote b c) := by decide

lemma promote_right_comm :
    ∀ a b c : ScalarKind,
      promote (promote a b) c = promote (promote a c) b := by decide

/-- C9: type inference is order-independent — for every permutation of a
list of raw values, `get_type` returns the same ScalarKind, because
pairwise promotion is commutative and associative (see `promote_comm` and
`promote_assoc`). -/
theorem get_type_permutation_invariant (l1 l2 : List Val)
    (h : l1.Perm l2) : get_type l1 = get_type l2 := by
  letI : RightCommutative (fun (k : ScalarKind) (v : Val) =>
      promote k (classify v)) :=
    ⟨fun b a1 a2 => promote_right_comm b (classify a1) (classify a2)⟩
  show l1.foldl (fun k v => promote k (classify v)) .null =
    l2.foldl (fun k v => promote k (classify v)) .null
  exact h.foldl_eq ScalarKind.null

/-- C9 witness: a concrete permutation of a mixed column infers the same
kind. -/
theorem get_type_permutation_invariant_witness :
    get_type [.intV 1, .strV "x", .noneV] =
      get_type [.noneV, .strV "x", .intV 1] :=
  get_type_permutation_invariant _ _ (by decide)

lemma row_at_eq_some (m : ColMap) (i : ℕ)
    (h : ∀ kv ∈ m, i < kv.2.length) :
    row_at m i = some (m.map (fun kv => (kv.1, kv.2.getD i Val.noneV))) := by
  induction m with
  | nil => rfl
  | cons kv rest ih =>
    obtain ⟨k, vs⟩ := kv
    have hi : i < vs.length := h (k, vs) (by simp)
    have hsome : vs[i]? = some (vs.getD i Val.noneV) := by
      rw [List.getElem?_eq_getElem hi, List.getD_eq_getElem?_getD,
        List.getElem?_eq_getElem hi]
      rfl
    have hrest := ih (fun kv' h' => h kv' (List.mem_cons_of_mem _ h'))
    simp only [row_at, hsome, hrest, List.map_cons]

lemma row_at_eq_none (m : ColMap) (i : ℕ)
    (h : ∃ kv ∈ m, kv.2.length ≤ i) : row_at m i = none := by
  induction m with
  | nil => simp at h
  | cons kv rest ih =>
    obtain ⟨k, vs⟩ := kv
    rcases h with ⟨kv', hkv', hlen⟩
    rcases List.mem_cons.mp hkv' with heq | hmem
    · have hle : vs.length ≤ i := by
        rw [heq] at hlen
        exact hlen
      have hnone : vs[i]? = none := by
        rw [List.getElem?_eq_none_iff]
        exact hle
      simp [row_at, hnone]
    · cases hk : vs[i]? with
      | none => simp [row_at, hk]
      | some v => simp [row_at, hk, ih ⟨kv', hmem, hlen⟩]

lemma collect_rows_eq_map (m : ColMap) (is : List ℕ) (f : ℕ → Row)
    (h : ∀ i ∈ is, row_at m i = some (f i)) :
    collect_rows m is = some (is.map f) := by
  induction is with
  | nil => rfl
  | cons i rest ih =>
    have hh := h i (by simp)
    have ht := ih (fun j hj => h j (List.mem_cons_of_mem _ hj))
    simp [collect_rows, hh, ht]

lemma collect_rows_eq_none (m : ColMap) (is : List ℕ)
    (h : ∃ i ∈ is, row_at m i = none) : collect_rows m is = none := by
  induction is with
  | nil => simp at h
  | cons i rest ih =>
    rcases h with ⟨j, hj, hnone⟩
    rcases List.mem_cons.mp hj with rfl | hmem
    · simp [collect_rows, hnone]
    · cases hr : row_at m i with
      | none => simp [collect_rows, hr]
      | some r => simp [collect_rows, hr, ih ⟨j, hmem, hnone⟩]

/-- C7: on a non-empty column map whose columns all have length `n`,
`_dict_to_rows` succeeds and returns exactly `n` records in row order,
the i-th record mapping each column name to the i-th value of that
column. -/
theorem dict_to_rows_equal_length_records (m : ColMap) (n : ℕ)
    (hne : m ≠ []) (hlen : ∀ kv ∈ m, kv.2.length = n) :
    dict_to_rows m =
      some ((List.range n).map (fun i =>
        m.map (fun kv => (kv.1, kv.2.getD i Val.noneV)))) := by
  cases m with
  | nil => exact absurd rfl hne
  | cons kv0 rest =>
    cases kv0 with
    | mk k0 vs0 =>
      have h0 : vs0.length = n := hlen (k0, vs0) (by simp)
      show collect_rows ((k0, vs0) :: rest) (List.range vs0.length) = _
      rw [h0]
      apply collect_rows_eq_map
      intro i hi
      apply row_at_eq_some
      intro kv hkv
      rw [hlen kv hkv]
      exact List.mem_range.mp hi

/-- C7 witness: a two-column, two-row map pivots into its two records. -/
theorem dict_to_rows_equal_length_records_witness :
    dict_to_rows [("strings", [Val.strV "hi", Val.strV "world"]),
        ("ints", [Val.intV 1, Val.intV 2])] =
      some ((List.range 2).map (fun i =>
        ([("strings", [Val.strV "hi", Val.strV "world"]),
          ("ints", [Val.intV 1, Val.intV 2])] : ColMap).map
          (fun kv => (kv.1, kv.2.getD i Val.noneV)))) :=
  dict_to_rows_equal_length_records _ 2 (by decide) (by decide)

/-- C10: on a column map with unequal column lengths, `_dict_to_rows`
iterates over `range(len(first column))`: if every column is at least as
long as the first, it returns exactly as many records as the first column
has values, silently dropping the extra values of longer columns; if some
column is shorter than the first, the `self.data[key][i]` access fails
with an out-of-range indexing error (the `none` of the embedding, an
`IndexError`, not an error of the library's own taxonomy). -/
theorem dict_to_rows_first_column_dominates (k0 : String) (vs0 : List Val)
    (rest : ColMap) :
    ((∀ kv ∈ (k0, vs0) :: rest, vs0.length ≤ kv.2.length) →
      dict_to_rows ((k0, vs0) :: rest) =
        some ((List.range vs0.length).map (fun i =>
          ((k0, vs0) :: rest).map (fun kv => (kv.1, kv.2.getD i Val.noneV))))) ∧
    ((∃ kv ∈ (k0, vs0) :: rest, kv.2.length < vs0.length) →
      dict_to_rows ((k0, vs0) :: rest) = none) := by
  constructor
  · intro hge
    show collect_rows _ (List.range vs0.length) = _
    apply collect_rows_eq_map
    intro i hi
    apply row_at_eq_some
    intro kv hkv
    exact lt_of_lt_of_le (List.mem_range.mp hi) (hge kv hkv)
  · rintro ⟨kv, hkv, hlt⟩
    show collect_rows _ (List.range vs0.length) = none
    apply collect_rows_eq_none
    exact ⟨kv.2.length, List.mem_range.mpr hlt,
      row_at_eq_none _ _ ⟨kv, hkv, le_refl _⟩⟩

/-- C10 witness: a second column shorter than the first makes the rows
operation fail (the embedded `IndexError`). -/
theorem dict_to_rows_first_column_dominates_witness :
    dict_to_rows [("a", [Val.intV 1, Val.intV 2]), ("b", [Val.strV "x"])] =
      none :=
  (dict_to_rows_first_column_dominates "a" [Val.intV 1, Val.intV 2]
    [("b", [Val.strV "x"])]).2 (by decide)

lemma nat_max?_eq_some_iff {xs : List ℕ} {n : ℕ} :
    xs.max? = some n ↔ n ∈ xs ∧ ∀ b ∈ xs, b ≤ n :=
  List.max?_eq_some_iff (fun a => le_refl a) (fun a b => max_choice a b)
    (fun _ _ _ => max_le_iff)

lemma not_isEmpty_of_ne_nil {α : Type} {l : List α} (h : l ≠ []) :
    (!l.isEmpty) = true := by
  cases l with
  | nil => exact absurd rfl h
  | cons a t => rfl

lemma lookup_map_append (m : ColMap) (k : String) (tail : List Val)
    (col : List Val) (h : m.lookup k = some col) :
    (m.map (fun kv =>
      if kv.1 == k then (kv.1, kv.2 ++ tail) else kv)).lookup k =
      some (col ++ tail) := by
  induction m with
  | nil => simp [List.lookup] at h
  | cons kv rest ih =>
    obtain ⟨k1, vs⟩ := kv
    cases hk : (k == k1) with
    | true =>
      have hkeq : k = k1 := eq_of_beq hk
      simp only [List.lookup, hk] at h
      have hcol : vs = col := Option.some.inj h
      have hk2 : (k1 == k) = true := beq_iff_eq.mpr hkeq.symm
      rw [List.map_cons]
      dsimp only
      rw [if_pos hk2]
      simp only [List.lookup, hk]
      rw [hcol]
    | false =>
      have hk2 : (k1 == k) = false := by
        cases hb : (k1 == k) with
        | true =>
          exfalso
          have heq : k = k1 := (eq_of_beq hb).symm
          rw [heq] at hk
          simp at hk
        | false => rfl
      simp only [List.lookup, hk] at h
      rw [List.map_cons]
      dsimp only
      rw [if_neg (by simp [hk2])]
      simp only [List.lookup, hk]
      exact ih h

lemma map_if_append_nil (m : ColMap) (k : String) :
    m.map (fun kv =>
      if kv.1 == k then (kv.1, kv.2 ++ ([] : List Val)) else kv) = m := by
  induction m with
  | nil => rfl
  | cons kv rest ih =>
    obtain ⟨k1, vs⟩ := kv
    cases h : (k1 == k) <;> simp [h, ih]

/-- C6: with the named column present and at least one non-empty column,
`fill` appends `value` to the named column until its length equals the
maximum column length `num_rows()` of the dataset, and a second identical
`fill` call returns the dataset unchanged (so in particular the column's
length is unchanged). -/
theorem fill_to_max_and_idempotent (m : ColMap) (k : String) (v : Val)
    (hnd : (m.map Prod.fst).Nodup)
    (col : List Val) (hlk : m.lookup k = some col)
    (n : ℕ) (hn : num_rows m = some n) :
    ∃ m', fill m k v = some m' ∧
      m'.lookup k = some (col ++ List.replicate (n - col.length) v) ∧
      (col ++ List.replicate (n - col.length) v).length = n ∧
      fill m' k v = some m' := by
  have hmem : (k, col) ∈ m := mem_of_lookup_eq_some hlk
  have hmax := nat_max?_eq_some_iff.mp hn
  have hbound : ∀ kv ∈ m, kv.2 ≠ [] → kv.2.length ≤ n := by
    intro kv hkv hne
    apply hmax.2
    apply List.mem_map.mpr
    refine ⟨kv, ?_, rfl⟩
    exact List.mem_filter.mpr ⟨hkv, not_isEmpty_of_ne_nil hne⟩
  have hn1 : 1 ≤ n := by
    rcases List.mem_map.mp hmax.1 with ⟨kv, hkvf, hlen⟩
    have hf := (List.mem_filter.mp hkvf).2
    rw [← hlen]
    cases h2 : kv.2 with
    | nil =>
      rw [h2] at hf
      simp [List.isEmpty] at hf
    | cons a t => simp [h2]
  have hcol_le : col.length ≤ n := by
    by_cases hc : col = []
    · rw [hc]
      simp
    · exact hbound (k, col) hmem hc
  have hlen' : (col ++ List.replicate (n - col.length) v).length = n := by
    rw [List.length_append, List.length_replicate]
    omega
  have hfill1 : fill m k v = some (m.map (fun kv =>
      if kv.1 == k then
        (kv.1, kv.2 ++ List.replicate (n - col.length) v)
      else kv)) := by
    simp [fill, hlk, hn]
  refine ⟨_, hfill1, lookup_map_append m k _ col hlk, hlen', ?_⟩
  have hlk' := lookup_map_append m k (List.replicate (n - col.length) v) col hlk
  have hnum' : num_rows (m.map (fun kv =>
      if kv.1 == k then
        (kv.1, kv.2 ++ List.replicate (n - col.length) v)
      else kv)) = some n := by
    apply nat_max?_eq_some_iff.mpr
    constructor
    · apply List.mem_map.mpr
      refine ⟨(k, col ++ List.replicate (n - col.length) v), ?_, hlen'⟩
      apply List.mem_filter.mpr
      constructor
      · apply List.mem_map.mpr
        refine ⟨(k, col), hmem, ?_⟩
        simp
      · apply not_isEmpty_of_ne_nil
        intro hnil
        have hnil' : col ++ List.replicate (n - col.length) v = [] := hnil
        rw [hnil'] at hlen'
        simp at hlen'
        omega
    · intro b hb
      rcases List.mem_map.mp hb with ⟨kv', hkvf', hblen⟩
      have hkv'mem := (List.mem_filter.mp hkvf').1
      have hkv'ne := (List.mem_filter.mp hkvf').2
      rcases List.mem_map.mp hkv'mem with ⟨kv, hkvm, hgkv⟩
      by_cases hk : (kv.1 == k) = true
      · have hkeq : kv.1 = k := eq_of_beq hk
        have hmm : (k, kv.2) ∈ m := by
          rw [show (k, kv.2) = kv from by rw [← hkeq]]
          exact hkvm
        have hkv2 : kv.2 = col := assoc_unique_of_nodup_keys hnd hmm hmem
        have hkv'eq : kv' = (kv.1, col ++ List.replicate (n - col.length) v) := by
          rw [← hgkv]
          simp [hk, hkv2]
        rw [hkv'eq] at hblen
        simp only at hblen
        rw [← hblen, hlen']
      · have hkveq : kv' = kv := by
          rw [← hgkv]
          simp [hk]
        rw [hkveq] at hblen hkv'ne
        have hne : kv.2 ≠ [] := by
          intro hnil
          rw [hnil] at hkv'ne
          simp [List.isEmpty] at hkv'ne
        rw [← hblen]
        exact hbound kv hkvm hne
  have hfill2 : fill (m.map (fun kv =>
      if kv.1 == k then
        (kv.1, kv.2 ++ List.replicate (n - col.length) v)
      else kv)) k v =
      some ((m.map (fun kv =>
        if kv.1 == k then
          (kv.1, kv.2 ++ List.replicate (n - col.length) v)
        else kv)).map (fun kv =>
          if kv.1 == k then
            (kv.1, kv.2 ++ List.replicate
              (n - (col ++ List.replicate (n - col.length) v).length) v)
          else kv)) := by
    unfold fill
    rw [hlk', hnum']
  rw [hfill2]
  simp only [hlen', Nat.sub_self, List.replicate_zero]
  rw [map_if_append_nil]

/-- C6 witness: filling the length-1 column `a` of a dataset whose longest
column has length 2 brings it to length 2, and a second identical fill is
the identity. -/
theorem fill_to_max_and_idempotent_witness :
    ∃ m', fill [("a", [Val.intV 1]), ("b", [Val.intV 1, Val.intV 2])] "a"
        (Val.intV 0) = some m' ∧
      m'.lookup "a" = some ([Val.intV 1] ++
        List.replicate (2 - [Val.intV 1].length) (Val.intV 0)) ∧
      ([Val.intV 1] ++
        List.replicate (2 - [Val.intV 1].length) (Val.intV 0)).length = 2 ∧
      fill m' "a" (Val.intV 0) = some m' :=
  fill_to_max_and_idempotent _ "a" (Val.intV 0) (by decide) [Val.intV 1]
    (by decide) 2 (by decide)

/-- C2 counterexample: coercing the list `[2.2]` to Integer does NOT fail
with a `CoercionError` — it succeeds and returns `[2]`, because the
repository's own test `tests.py::TestTypeCheck.test_set_type` pins
rounding semantics (`set_type([1.1, 2.2, 3.3, 4.6], int) == [1, 2, 3, 5]`)
for floats with nonzero fractional part. -/
theorem set_type_fractional_float_rounds :
    set_type [.floatV ratTwoPointTwo] .int = .ok [.intV 2] := by decide

/-- C2 (amended): coercion of a float to Integer always succeeds,
rounding to the nearest integer with ties to even (Python `round`):
`coerce([2.2], Integer) == [2]` and `coerce([2.0], Integer) == [2]`; no
`CoercionError` is raised for a nonzero fractional part. -/
theorem set_type_float_to_int_rounds :
    (∀ q : ℚ, set_type [.floatV q] .int = .ok [.intV (round_half_even q)]) ∧
    set_type [.floatV ratTwoPointTwo] .int = .ok [.intV 2] ∧
    set_type [.floatV ratTwo] .int = .ok [.intV 2] := by
  refine ⟨fun q => rfl, by decide, by decide⟩

/-- C3 counterexample: `None` is a value whose kind (Null) is not the
target kind Date, yet coercing `[None]` to Date does not fail — null
values pass through every coercion target unchanged (spec section 4.3,
null passthrough), so the claim quantified over EVERY value of
non-matching kind is false. -/
theorem set_type_null_passthrough_date :
    classify Val.noneV ≠ target_kind PyType.date ∧
    set_type [Val.noneV] .date = .ok [Val.noneV] := by decide

lemma coerce_one_unsupported (i : ℕ) (v : Val) (t : PyType)
    (ht : t = .bool ∨ t = .date ∨ t = .datetime)
    (hv : v ≠ .noneV) (hk : classify v ≠ target_kind t) :
    coerce_one i v t = .error (.unsupportedCoercion v i t) := by
  rcases ht with rfl | rfl | rfl <;> cases v <;>
    simp_all [coerce_one, classify, target_kind]

lemma coerce_one_ok_of_three (i : ℕ) (v : Val) (t : PyType)
    (ht : t = .bool ∨ t = .date ∨ t = .datetime) :
    coerce_one i v t = .ok v ∨
      coerce_one i v t = .error (.unsupportedCoercion v i t) := by
  rcases ht with rfl | rfl | rfl <;> cases v <;> simp [coerce_one]

lemma set_type_from_three_error (ii : ℕ) (t : PyType) (vs : List Val)
    (ht : t = .bool ∨ t = .date ∨ t = .datetime)
    (hbad : ∃ v ∈ vs, v ≠ .noneV ∧ classify v ≠ target_kind t) :
    ∃ v i, set_type_from ii vs t = .error (.unsupportedCoercion v i t) := by
  revert hbad
  induction vs generalizing ii with
  | nil =>
    intro hbad
    simp at hbad
  | cons w ws ih =>
    intro hbad
    rcases hbad with ⟨v, hv, hvn, hvk⟩
    rcases List.mem_cons.mp hv with rfl | hmem
    · have hco := coerce_one_unsupported ii v t ht hvn hvk
      exact ⟨v, ii, by simp [set_type_from, hco]⟩
    · rcases coerce_one_ok_of_three ii w t ht with hok | herr
      · rcases ih (ii + 1) ⟨v, hmem, hvn, hvk⟩ with ⟨v', i', hrec⟩
        exact ⟨v', i', by simp [set_type_from, hok, hrec]⟩
      · exact ⟨w, ii, by simp [set_type_from, herr]⟩

/-- C3 (amended): for every NON-NULL value whose kind is not already the
target kind, coercion of a list containing it into Boolean, Date or
DateTime fails with `UnsupportedCoercionError` (null values instead pass
through); in particular the string of an ISO date is never parsed into a
date or datetime. -/
theorem set_type_cross_kind_unsupported (t : PyType) (vs : List Val)
    (ht : t = .bool ∨ t = .date ∨ t = .datetime)
    (hbad : ∃ v ∈ vs, v ≠ .noneV ∧ classify v ≠ target_kind t) :
    ∃ v i, set_type vs t = .error (.unsupportedCoercion v i t) :=
  set_type_from_three_error 0 t vs ht hbad

/-- C3 witness: coercing `["2019-01-01"]` to Date fails with the
unsupported-coercion error — the string is never parsed into a date. -/
theorem set_type_cross_kind_unsupported_witness :
    ∃ v i, set_type [Val.strV "2019-01-01"] .date =
      .error (.unsupportedCoercion v i .date) :=
  set_type_cross_kind_unsupported .date [Val.strV "2019-01-01"]
    (Or.inr (Or.inl rfl))
    ⟨Val.strV "2019-01-01", by decide, by decide, by decide⟩
